import Mathlib

/-!
Verification of the raps-demo workflow execution and resource-lifecycle
subsystem.  The Rust sources under `src/resource/{types,tracker,cleanup}.rs`
and `src/workflow/{types,discovery,executor}.rs` are shallowly embedded:

* machine integers and `chrono` durations/timestamps become `Int` (seconds),
* `f64` cost arithmetic becomes exact `Rat` arithmetic,
* `HashMap`/`HashSet` become association lists with insert-overwrite
  semantics (`alist_insert` / `List.lookup`),
* `Uuid` resource ids become `Nat`,
* fallible operations return `Except String`; the file-system outcome of a
  snapshot write is an explicit boolean parameter, and a `TrackerWorld`
  carries the in-memory state together with the persisted snapshot,
* time-dependent code (`Utc::now`) takes the current time (or a generated
  timestamp) as an explicit argument.

Every definition follows the Rust control flow of the function it embeds.
-/

namespace RapsDemo

/-! ## String containment (Rust `str::contains` with a substring pattern) -/

/-- Is `pat` a prefix of `s`? (`List.isPrefixOf` on characters). -/
def chars_has_pre (pat s : List Char) : Bool :=
  pat.isPrefixOf s

/-- Does `s` contain `pat` as a contiguous substring? -/
def chars_contains : List Char → List Char → Bool
  | [], pat => pat.isEmpty
  | s@(_ :: rest), pat => chars_has_pre pat s || chars_contains rest pat

/-- Rust `str::contains` with a literal pattern. -/
def str_contains (s pat : String) : Bool :=
  chars_contains s.data pat.data

theorem chars_has_pre_append {pat a : List Char} (b : List Char)
    (h : chars_has_pre pat a = true) : chars_has_pre pat (a ++ b) = true := by
  induction pat generalizing a with
  | nil => simp [chars_has_pre, List.isPrefixOf]
  | cons c cs ih =>
    cases a with
    | nil => simp [chars_has_pre, List.isPrefixOf] at h
    | cons a0 arest =>
      simp only [chars_has_pre, List.isPrefixOf, Bool.and_eq_true] at h ⊢
      exact ⟨h.1, ih h.2⟩

theorem chars_contains_append {a : List Char} (b pat : List Char)
    (h : chars_contains a pat = true) : chars_contains (a ++ b) pat = true := by
  induction a with
  | nil =>
    simp only [chars_contains] at h
    have hpat : pat = [] := by
      cases pat with
      | nil => rfl
      | cons p ps => simp [List.isEmpty] at h
    subst hpat
    cases b with
    | nil => simp [chars_contains]
    | cons b0 bs => simp [chars_contains, chars_has_pre, List.isPrefixOf]
  | cons a0 arest ih =>
    simp only [List.cons_append, chars_contains, Bool.or_eq_true] at h ⊢
    cases h with
    | inl hp => exact Or.inl (chars_has_pre_append b hp)
    | inr hc => exact Or.inr (ih hc)

theorem str_contains_append_left {s pat : String} (t : String)
    (h : str_contains s pat = true) : str_contains (s ++ t) pat = true := by
  have hdata : (s ++ t).data = s.data ++ t.data := rfl
  simpa [str_contains, hdata] using chars_contains_append t.data pat.data h

/-! ## Commands (`src/workflow/types.rs`, enum `RapsCommand`) -/

inductive AuthAction
  | login | logout | status | refresh
deriving DecidableEq, Repr

inductive BucketAction
  | create | delete | list | details
deriving DecidableEq, Repr

structure BucketParams where
  bucket_name : Option String
  retention_policy : Option String
  region : Option String
  force : Option Bool
deriving DecidableEq, Repr

inductive ObjectAction
  | upload | download | delete | list | details | signedUrl
deriving DecidableEq, Repr

structure ObjectParams where
  bucket_name : String
  object_key : Option String
  file_path : Option String
  batch : Option Bool
  expires_in : Option Nat
deriving DecidableEq, Repr

inductive TranslateAction
  | start | status | download | manifest
deriving DecidableEq, Repr

structure TranslateParams where
  urn : Option String
  format : Option String
  output_dir : Option String
  wait : Option Bool
deriving DecidableEq, Repr

inductive DataMgmtAction
  | hubList | projectList | folderList | folderCreate | itemVersions | itemBind
deriving DecidableEq, Repr

structure DataMgmtParams where
  hub_id : Option String
  project_id : Option String
  folder_id : Option String
  item_id : Option String
  folder_name : Option String
deriving DecidableEq, Repr

inductive DesignAutoAction
  | appBundles | activities | workItemRun | workItemGet
deriving DecidableEq, Repr

structure DesignAutoParams where
  app_bundle_id : Option String
  activity_id : Option String
  work_item_id : Option String
  input_file : Option String
  output_file : Option String
deriving DecidableEq, Repr

inductive RapsCommand
  | auth (action : AuthAction)
  | bucket (action : BucketAction) (params : BucketParams)
  | object (action : ObjectAction) (params : ObjectParams)
  | translate (action : TranslateAction) (params : TranslateParams)
  | dataManagement (action : DataMgmtAction) (params : DataMgmtParams)
  | designAutomation (action : DesignAutoAction) (params : DesignAutoParams)
  | custom (command : String) (args : List String)
deriving DecidableEq, Repr

/-! ## Resource model (`src/resource/types.rs`) -/

/-- `ResourceId = Uuid`, modelled as a natural number. -/
abbrev ResourceId := Nat

abbrev WorkflowId := String

inductive ResourceType
  | bucket (region : String) (retention_policy : String)
  | object (bucket_name : String) (size_bytes : Nat)
  | translation (source_urn : String) (formats : List String)
  | designAutomationWorkItem (activity_id : String)
  | photoscene (scene_type : String)
  | webhook (event_type : String) (callback_url : String)
  | folder (project_id : String) (parent_folder_id : String)
  | item (project_id : String) (folder_id : String)
deriving DecidableEq, Repr

structure TrackedResource where
  id : ResourceId
  resource_type : ResourceType
  aps_id : String
  name : String
  /-- `created_at : DateTime<Utc>` as unix seconds. -/
  created_at : Int
  workflow_id : WorkflowId
  cleanup_commands : List RapsCommand
  estimated_cost : Option Rat
  tags : List (String × String)
deriving DecidableEq, Repr

/-- `TrackedResource::has_demo_naming` (three patterns only). -/
def TrackedResource.has_demo_naming (r : TrackedResource) : Bool :=
  str_contains r.name "demo-" || str_contains r.name "test-" ||
    str_contains r.name "raps-demo-"

/-- `TrackedResource::age` relative to an explicit current time, in seconds. -/
def TrackedResource.age (r : TrackedResource) (now : Int) : Int :=
  now - r.created_at

/-- `TrackedResource::estimated_monthly_cost`; `f64` arithmetic is modelled
as exact rational arithmetic. -/
def TrackedResource.estimated_monthly_cost (r : TrackedResource) : Rat :=
  match r.resource_type with
  | .bucket _ _ => 1 / 100
  | .object _ size_bytes => ((size_bytes : Rat) / 1073741824) * (23 / 1000)
  | .translation _ formats => (formats.length : Rat) * (1 / 2)
  | .designAutomationWorkItem _ => 1 / 10
  | .photoscene _ => 1
  | .webhook _ _ => 0
  | .folder _ _ => 0
  | .item _ _ => 0

/-- `CleanupPolicy`; the `Delayed` duration is in seconds. -/
inductive CleanupPolicy
  | immediate
  | delayed (duration : Int)
  | manual
  | never
deriving DecidableEq, Repr

/-- `CleanupPolicy::default()`. -/
def CleanupPolicy.default_ : CleanupPolicy := .immediate

structure CleanupResult where
  success : Bool
  cleaned_resources : List ResourceId
  failed_resources : List (ResourceId × String)
deriving DecidableEq, Repr

/-- `ResourceNaming::demo_bucket_name` with the generated unix timestamp
passed explicitly. -/
def demo_bucket_name (ts : Int) : String :=
  "raps-demo-bucket-" ++ toString ts

/-- `ResourceNaming::demo_object_key`. -/
def demo_object_key (ts : Int) (original_name : String) : String :=
  "demo-" ++ toString ts ++ "-" ++ original_name

/-- `ResourceNaming::demo_folder_name`. -/
def demo_folder_name (ts : Int) (base_name : String) : String :=
  "RAPS Demo - " ++ base_name ++ " - " ++ toString ts

/-- `ResourceNaming::demo_photoscene_name`. -/
def demo_photoscene_name (ts : Int) : String :=
  "raps-demo-photoscene-" ++ toString ts

/-- `ResourceNaming::is_demo_name` (four patterns). -/
def is_demo_name (name : String) : Bool :=
  str_contains name "demo-" || str_contains name "test-" ||
    str_contains name "raps-demo-" || str_contains name "RAPS Demo"

/-! ## Association-list counterparts of `HashMap` operations -/

/-- `HashMap::insert` (overwrite semantics). -/
def alist_insert {V : Type} (k : String) (v : V) (m : List (String × V)) :
    List (String × V) :=
  (k, v) :: m.filter (fun p => !(p.1 == k))

/-- `HashMap::insert` keyed by resource id. -/
def rlist_insert {V : Type} (k : Nat) (v : V) (m : List (Nat × V)) :
    List (Nat × V) :=
  (k, v) :: m.filter (fun p => !(p.1 == k))

/-- `HashMap::remove` keyed by resource id. -/
def rlist_erase {V : Type} (k : Nat) (m : List (Nat × V)) : List (Nat × V) :=
  m.filter (fun p => !(p.1 == k))

/-- `HashMap::remove` keyed by string. -/
def alist_erase {V : Type} (k : String) (m : List (String × V)) :
    List (String × V) :=
  m.filter (fun p => !(p.1 == k))

/-! ## Ledger state (`src/resource/tracker.rs`, `FileBasedResourceTracker`) -/

structure TrackerState where
  resources : List (ResourceId × TrackedResource)
  workflow_resources : List (WorkflowId × List ResourceId)
  cleanup_policies : List (String × CleanupPolicy)
  cost_data : List (ResourceId × Rat)
deriving DecidableEq, Repr

/-- The in-memory tracker together with the persisted snapshot file.
`disk = none` models an absent state file; the snapshot content is the
serialized `TrackerState` (the `last_updated` stamp carries no information
used by any operation and is omitted). -/
structure TrackerWorld where
  mem : TrackerState
  disk : Option TrackerState
deriving DecidableEq, Repr

/-- `FileBasedResourceTracker::default_cleanup_policies` — note `Translation`
maps to `Delayed { duration: Duration::hours(1) }` in the source. -/
def default_cleanup_policies : List (String × CleanupPolicy) :=
  [("Bucket", .immediate),
   ("Object", .immediate),
   ("Translation", .delayed 3600),
   ("DesignAutomationWorkItem", .immediate),
   ("Photoscene", .immediate),
   ("Webhook", .manual),
   ("Folder", .manual),
   ("Item", .manual)]

/-- The `match` in `FileBasedResourceTracker::get_cleanup_policy` (and the
identical `ResourceTypeExt::type_name` in `cleanup.rs`). -/
def ResourceType.type_name : ResourceType → String
  | .bucket _ _ => "Bucket"
  | .object _ _ => "Object"
  | .translation _ _ => "Translation"
  | .designAutomationWorkItem _ => "DesignAutomationWorkItem"
  | .photoscene _ => "Photoscene"
  | .webhook _ _ => "Webhook"
  | .folder _ _ => "Folder"
  | .item _ _ => "Item"

/-- `FileBasedResourceTracker::get_cleanup_policy` over a policy map. -/
def get_cleanup_policy (policies : List (String × CleanupPolicy))
    (resource_type : ResourceType) : CleanupPolicy :=
  (policies.lookup resource_type.type_name).getD CleanupPolicy.default_

/-- `FileBasedResourceTracker::should_cleanup_resource`. -/
def should_cleanup_resource (policies : List (String × CleanupPolicy))
    (now : Int) (resource : TrackedResource) : Bool :=
  match get_cleanup_policy policies resource.resource_type with
  | .immediate => true
  | .delayed duration => decide (resource.age now ≥ duration)
  | .manual => false
  | .never => false

/-- `FileBasedResourceTracker::apply_demo_naming`, with the generated
timestamp explicit. -/
def apply_demo_naming (resource_type : ResourceType) (base_name : String)
    (ts : Int) : String :=
  match resource_type with
  | .bucket _ _ =>
    if is_demo_name base_name then base_name else demo_bucket_name ts
  | .object _ _ =>
    if is_demo_name base_name then base_name else demo_object_key ts base_name
  | .folder _ _ =>
    if is_demo_name base_name then base_name else demo_folder_name ts base_name
  | .photoscene _ =>
    if is_demo_name base_name then base_name else demo_photoscene_name ts
  | _ =>
    if is_demo_name base_name then base_name else "demo-" ++ base_name

/-- `FileBasedResourceTracker::save_state`: serializes the in-memory state
and writes it; `write_ok` is the outcome of `fs::write`.  On success the
snapshot equals the in-memory state; on failure the snapshot is untouched
and an error is returned. -/
def save_state (w : TrackerWorld) (write_ok : Bool) :
    Except String Unit × TrackerWorld :=
  if write_ok then (Except.ok (), { w with disk := some w.mem })
  else (Except.error "Failed to write state file", w)

/-- The workflow-index update in `track_resource`:
`entry(workflow_id).or_insert_with(Vec::new).push(resource_id)`. -/
def wf_index_push (wid : WorkflowId) (rid : ResourceId)
    (m : List (WorkflowId × List ResourceId)) :
    List (WorkflowId × List ResourceId) :=
  match m.lookup wid with
  | some ids => alist_insert wid (ids ++ [rid]) m
  | none => alist_insert wid [rid] m

/-- `ResourceTracker::track_resource` for `FileBasedResourceTracker`.
Renames the resource when `has_demo_naming` fails, inserts it into both
indexes, then saves; a failed save is returned to the caller (with context)
but the in-memory mutation is kept, exactly as in the source. -/
def track_resource (w : TrackerWorld) (resource : TrackedResource)
    (ts : Int) (write_ok : Bool) :
    Except String ResourceId × TrackerWorld :=
  let resource' :=
    if resource.has_demo_naming then resource
    else { resource with
           name := apply_demo_naming resource.resource_type resource.name ts }
  let rid := resource'.id
  let wid := resource'.workflow_id
  let mem' := { w.mem with
    resources := rlist_insert rid resource' w.mem.resources,
    workflow_resources := wf_index_push wid rid w.mem.workflow_resources }
  match save_state { w with mem := mem' } write_ok with
  | (Except.ok _, w') => (Except.ok rid, w')
  | (Except.error e, w') =>
    (Except.error ("Failed to save tracker state after adding resource: " ++ e),
     w')

/-- The workflow-index update in `untrack_resource`: retain all ids other
than the removed one and drop the entry when it becomes empty. -/
def wf_index_remove (wid : WorkflowId) (rid : ResourceId)
    (m : List (WorkflowId × List ResourceId)) :
    List (WorkflowId × List ResourceId) :=
  match m.lookup wid with
  | some ids =>
    let ids' := ids.filter (fun i => !(i == rid))
    if ids'.isEmpty then alist_erase wid m else alist_insert wid ids' m
  | none => m

/-- `ResourceTracker::untrack_resource`.  A missing id is a silent success
(no save); otherwise all indexes are updated and the state saved, a failed
save again leaving the mutation in memory. -/
def untrack_resource (w : TrackerWorld) (rid : ResourceId)
    (write_ok : Bool) : Except String Unit × TrackerWorld :=
  match w.mem.resources.lookup rid with
  | none => (Except.ok (), w)
  | some resource =>
    let mem' := { w.mem with
      resources := rlist_erase rid w.mem.resources,
      workflow_resources :=
        wf_index_remove resource.workflow_id rid w.mem.workflow_resources,
      cost_data := rlist_erase rid w.mem.cost_data }
    match save_state { w with mem := mem' } write_ok with
    | (Except.ok _, w') => (Except.ok (), w')
    | (Except.error e, w') =>
      (Except.error
        ("Failed to save tracker state after removing resource: " ++ e), w')

/-- `CostEstimator::track_actual_cost` (the spec's `record_actual_cost`).
Updates the cost map and the resource's `estimated_cost`, then saves; a
failed save is only logged — the function returns no error. -/
def track_actual_cost (w : TrackerWorld) (rid : ResourceId)
    (actual_cost : Rat) (write_ok : Bool) : TrackerWorld :=
  let mem' := { w.mem with
    cost_data := rlist_insert rid actual_cost w.mem.cost_data,
    resources :=
      match w.mem.resources.lookup rid with
      | some r =>
        rlist_insert rid { r with estimated_cost := some actual_cost }
          w.mem.resources
      | none => w.mem.resources }
  (save_state { w with mem := mem' } write_ok).2

/-- `ResourceTracker::get_resources_for_workflow`. -/
def get_resources_for_workflow (st : TrackerState) (wid : WorkflowId) :
    List TrackedResource :=
  ((st.workflow_resources.lookup wid).getD []).filterMap
    (fun rid => st.resources.lookup rid)

/-- `FileBasedResourceTracker::generate_cleanup_commands`. -/
def generate_cleanup_commands (resource : TrackedResource) :
    List RapsCommand :=
  if !resource.cleanup_commands.isEmpty then resource.cleanup_commands
  else
    match resource.resource_type with
    | .bucket _ _ =>
      [RapsCommand.bucket .delete
        { bucket_name := some resource.aps_id,
          retention_policy := none, region := none, force := some true }]
    | .object bucket_name _ =>
      [RapsCommand.object .delete
        { bucket_name := bucket_name, object_key := some resource.aps_id,
          file_path := none, batch := none, expires_in := none }]
    | .webhook _ _ =>
      [RapsCommand.custom "raps" ["webhook", "delete", resource.aps_id]]
    | _ => []

/-- The per-resource loop of
`FileBasedResourceTracker::cleanup_workflow_resources`.  The second
component of the result records every CLI invocation the loop performs;
the source contains no call into the CLI client on this path (it logs and
pushes the id into `cleaned_resources` both when the generated command list
is empty and when it is not), so no branch appends an invocation. -/
def cleanup_loop (policies : List (String × CleanupPolicy)) (now : Int) :
    List TrackedResource → List ResourceId × List RapsCommand
  | [] => ([], [])
  | resource :: rest =>
    let (cleaned, executed) := cleanup_loop policies now rest
    if !should_cleanup_resource policies now resource then (cleaned, executed)
    else (resource.id :: cleaned, executed)

/-- `ResourceTracker::cleanup_workflow_resources`.  Returns the
`CleanupResult` paired with the list of CLI commands actually executed
(always empty in the source).  `failed_resources` is a `Vec` that is never
pushed to, so `success` is always true. -/
def cleanup_workflow_resources (st : TrackerState) (wid : WorkflowId)
    (now : Int) : CleanupResult × List RapsCommand :=
  let resources := get_resources_for_workflow st wid
  if resources.isEmpty then
    ({ success := true, cleaned_resources := [], failed_resources := [] }, [])
  else
    let (cleaned, executed) := cleanup_loop st.cleanup_policies now resources
    ({ success := true, cleaned_resources := cleaned,
       failed_resources := [] }, executed)

/-! ## Cleanup orchestrator (`src/resource/cleanup.rs`) -/

inductive CleanupMode
  | automatic | manual | interactive | dryRun
deriving DecidableEq, Repr

/-- `CleanupOrchestrator::create_default_policies` — this second policy map
(used only by the dry-run path) delays `Translation` by two hours. -/
def create_default_policies : List (String × CleanupPolicy) :=
  [("Bucket", .immediate),
   ("Object", .immediate),
   ("Photoscene", .immediate),
   ("DesignAutomationWorkItem", .immediate),
   ("Translation", .delayed 7200),
   ("Webhook", .manual),
   ("Folder", .manual),
   ("Item", .manual)]

/-- `CleanupOrchestrator::generate_manual_cleanup_instructions`: every
resource id is reported as cleaned; the instruction strings are logged
only.  No CLI command is executed. -/
def generate_manual_cleanup_instructions (st : TrackerState)
    (wid : WorkflowId) : CleanupResult × List RapsCommand :=
  let resources := get_resources_for_workflow st wid
  ({ success := true,
     cleaned_resources := resources.map (fun r => r.id),
     failed_resources := [] }, [])

/-- The simulated per-resource confirmation in
`CleanupOrchestrator::execute_interactive_cleanup`. -/
def interactive_should_clean (resource : TrackedResource) : Bool :=
  match resource.resource_type with
  | .bucket _ _ => true
  | .object _ _ => true
  | .photoscene _ => true
  | _ => false

/-- `CleanupOrchestrator::execute_interactive_cleanup`: resources whose
simulated confirmation succeeds are reported cleaned, the rest failed; no
CLI command is executed. -/
def execute_interactive_cleanup (st : TrackerState) (wid : WorkflowId) :
    CleanupResult × List RapsCommand :=
  let resources := get_resources_for_workflow st wid
  let cleaned := (resources.filter interactive_should_clean).map (fun r => r.id)
  let failed := (resources.filter (fun r => !interactive_should_clean r)).map
    (fun r => (r.id, "User declined cleanup"))
  ({ success := failed.isEmpty, cleaned_resources := cleaned,
     failed_resources := failed }, [])

/-- `CleanupOrchestrator::get_resource_policy` (orchestrator policy map). -/
def get_resource_policy (resource_type : ResourceType) : CleanupPolicy :=
  (create_default_policies.lookup resource_type.type_name).getD
    CleanupPolicy.default_

/-- `CleanupOrchestrator::execute_dry_run_cleanup`. -/
def execute_dry_run_cleanup (st : TrackerState) (wid : WorkflowId)
    (now : Int) : CleanupResult × List RapsCommand :=
  let resources := get_resources_for_workflow st wid
  let step := fun (acc : List ResourceId × List (ResourceId × String))
      (resource : TrackedResource) =>
    match get_resource_policy resource.resource_type with
    | .immediate => (acc.1 ++ [resource.id], acc.2)
    | .delayed duration =>
      if resource.age now ≥ duration then (acc.1 ++ [resource.id], acc.2)
      else (acc.1, acc.2 ++ [(resource.id, "Resource too young")])
    | .manual => (acc.1, acc.2 ++ [(resource.id, "Manual cleanup policy")])
    | .never => (acc.1, acc.2 ++ [(resource.id, "Never cleanup policy")])
  let (would_clean, would_skip) := resources.foldl step ([], [])
  ({ success := true, cleaned_resources := would_clean,
     failed_resources := would_skip }, [])

/-- `CleanupOrchestrator::execute_immediate_cleanup`: dispatch on the
cleanup mode.  The pair's second component again records the CLI commands
actually invoked. -/
def execute_immediate_cleanup (st : TrackerState) (wid : WorkflowId)
    (mode : CleanupMode) (now : Int) : CleanupResult × List RapsCommand :=
  match mode with
  | .automatic => cleanup_workflow_resources st wid now
  | .manual => generate_manual_cleanup_instructions st wid
  | .interactive => execute_interactive_cleanup st wid
  | .dryRun => execute_dry_run_cleanup st wid now

/-- `CostSummary` total as computed by `get_cost_summary` /
`CostSummary::add_resource`: the sum of the per-kind heuristic cost over
the workflow's resources. -/
def cost_summary_total (st : TrackerState) (wid : WorkflowId) : Rat :=
  ((get_resources_for_workflow st wid).map
    (fun r => r.estimated_monthly_cost)).sum

/-- The descending stable sort in `execute_cost_based_cleanup`
(`sort_by(|a, b| b.cost().partial_cmp(&a.cost()))`). -/
def sorted_by_cost_desc (st : TrackerState) (wid : WorkflowId) :
    List TrackedResource :=
  (get_resources_for_workflow st wid).insertionSort
    (fun a b => b.estimated_monthly_cost ≤ a.estimated_monthly_cost)

/-- The cleaning loop of `execute_cost_based_cleanup`: walk the sorted
resources, stopping as soon as the running remaining cost drops to the
threshold. -/
def cost_clean_loop (cost_threshold : Rat) :
    Rat → List TrackedResource → List ResourceId
  | _, [] => []
  | remaining, resource :: rest =>
    if remaining ≤ cost_threshold then []
    else resource.id ::
      cost_clean_loop cost_threshold
        (remaining - resource.estimated_monthly_cost) rest

/-- `CleanupOrchestrator::execute_cost_based_cleanup`. -/
def execute_cost_based_cleanup (st : TrackerState) (wid : WorkflowId)
    (cost_threshold : Rat) : CleanupResult :=
  let total := cost_summary_total st wid
  if total ≤ cost_threshold then
    { success := true, cleaned_resources := [], failed_resources := [] }
  else
    { success := true,
      cleaned_resources :=
        cost_clean_loop cost_threshold total (sorted_by_cost_desc st wid),
      failed_resources := [] }

/-- The total heuristic cost of the workflow's resources that are NOT in
the cleaned list of `execute_cost_based_cleanup`. -/
def uncleaned_cost (st : TrackerState) (wid : WorkflowId)
    (cost_threshold : Rat) : Rat :=
  let cleaned := (execute_cost_based_cleanup st wid cost_threshold).cleaned_resources
  (((get_resources_for_workflow st wid).filter
      (fun r => !cleaned.contains r.id)).map
    (fun r => r.estimated_monthly_cost)).sum

/-! ## Workflow definitions (`src/workflow/types.rs`, `discovery.rs`) -/

inductive WorkflowCategory
  | objectStorage | modelDerivative | dataManagement | designAutomation
  | constructionCloud | realityCapture | webhooks | endToEnd
deriving DecidableEq, Repr

inductive PrerequisiteType
  | authentication | permissions | externalTool | assets
deriving DecidableEq, Repr

structure Prerequisite where
  prerequisite_type : PrerequisiteType
  description : String
deriving DecidableEq, Repr

structure CostEstimate where
  description : String
  max_cost_usd : Rat
deriving DecidableEq, Repr

structure WorkflowMetadata where
  id : WorkflowId
  name : String
  description : String
  category : WorkflowCategory
  prerequisites : List Prerequisite
  /-- `estimated_duration` in seconds (`duration_serde`). -/
  estimated_duration : Int
  cost_estimate : Option CostEstimate
  required_assets : List String
  /-- `#[serde(skip)]`: filled in after parsing. -/
  script_path : String
deriving DecidableEq, Repr

structure ExecutionStep where
  id : String
  name : String
  description : String
  command : RapsCommand
  expected_duration : Option Int
  cleanup_commands : List RapsCommand
deriving DecidableEq, Repr

structure WorkflowDefinition where
  metadata : WorkflowMetadata
  steps : List ExecutionStep
  cleanup : List RapsCommand
  dependencies : Option (List WorkflowId)
deriving DecidableEq, Repr

structure ValidationResult where
  is_valid : Bool
  errors : List String
  warnings : List String
deriving DecidableEq, Repr

/-- `WorkflowDiscovery::validate_command`, returning the error message of
the `Err` case. -/
def validate_command : RapsCommand → Option String
  | .bucket _ params =>
    if params.bucket_name.isNone then some "Bucket command requires bucket_name"
    else none
  | .object _ params =>
    if params.bucket_name = "" then some "Object command requires bucket_name"
    else none
  | .custom command _ =>
    if command = "" then some "Custom command cannot be empty" else none
  | _ => none

/-- The step loop of `WorkflowDiscovery::validate_workflow`, accumulating
error strings; `seen` is the `HashSet` of step ids inserted so far (an
empty id is never inserted, mirroring the `else if` in the source). -/
def step_errors (seen : List String) : List ExecutionStep → List String
  | [] => []
  | step :: rest =>
    let e1 :=
      if step.id = "" then ["Step ID cannot be empty"]
      else if seen.contains step.id then ["Duplicate step ID: " ++ step.id]
      else []
    let seen' :=
      if step.id = "" then seen
      else if seen.contains step.id then seen
      else step.id :: seen
    let e2 :=
      if step.name = "" then ["Step '" ++ step.id ++ "' name cannot be empty"]
      else []
    let e3 :=
      match validate_command step.command with
      | some m => ["Invalid command in step '" ++ step.id ++ "': " ++ m]
      | none => []
    e1 ++ e2 ++ e3 ++ step_errors seen' rest

/-- `WorkflowDiscovery::validate_workflow` on a definition the discovery
holds.  `known` is the key set of the discovered-workflow map and
`asset_exists` the file-system existence oracle (warnings only). -/
def validate_workflow (known : List WorkflowId)
    (asset_exists : String → Bool) (workflow : WorkflowDefinition) :
    ValidationResult :=
  let meta_errors :=
    (if workflow.metadata.id = "" then ["Workflow ID cannot be empty"] else [])
      ++ (if workflow.metadata.name = "" then ["Workflow name cannot be empty"]
          else [])
  let steps_empty_errors :=
    if workflow.steps.isEmpty then ["Workflow must have at least one step"]
    else []
  let dep_errors :=
    (workflow.dependencies.getD []).filterMap (fun dep_id =>
      if known.contains dep_id then none
      else some ("Dependency workflow not found: " ++ dep_id))
  let errors := meta_errors ++ steps_empty_errors
    ++ step_errors [] workflow.steps ++ dep_errors
  let warnings :=
    (if workflow.metadata.description = ""
     then ["Workflow description is empty"] else [])
      ++ workflow.metadata.required_assets.filterMap (fun p =>
          if asset_exists p then none
          else some ("Required asset not found: " ++ p))
  { is_valid := errors.isEmpty,
    errors := errors,
    warnings := [String.intercalate "; " warnings] }

/-- The structural rules of the specification (section 4.C), stated
independently of the validator. -/
def structurally_valid (known : List WorkflowId)
    (workflow : WorkflowDefinition) : Prop :=
  workflow.metadata.id ≠ "" ∧ workflow.metadata.name ≠ "" ∧
  workflow.steps ≠ [] ∧
  (workflow.steps.map (fun s => s.id)).Nodup ∧
  (∀ s ∈ workflow.steps,
    s.id ≠ "" ∧ s.name ≠ "" ∧ validate_command s.command = none) ∧
  (∀ d ∈ workflow.dependencies.getD [], d ∈ known)

/-! ## Executor (`src/workflow/executor.rs`) -/

inductive ExecutionStatus
  | pending | running | paused | completed | failed | cancelled
deriving DecidableEq, Repr

/-- The kinds of `ExecutionUpdate` events, payloads elided. -/
inductive EventKind
  | started | stepStarted | stepProgress | stepCompleted
  | paused | completed | failed | cancelled
deriving DecidableEq, Repr

/-- The loop of `run_workflow_execution` together with `execute_step`, for
a run whose status is never changed concurrently (no `cancel` / external
`pause`).  `idx` is `current_step_index`, `remaining` the steps from that
index on, and `outcome i` the success bit of the CLI invocation of step
`i`.  Returns the events the loop emits and whether it returned `Err`
(a failed step propagates `Err` through the `?` in the loop). -/
def run_loop (interactive : Bool) (outcome : Nat → Bool) :
    Nat → List ExecutionStep → List EventKind × Bool
  | _, [] => ([.completed], false)
  | idx, _ :: rest =>
    if interactive && decide (idx > 0) then ([.paused], false)
    else if outcome idx then
      let (events, errored) := run_loop interactive outcome (idx + 1) rest
      (.stepStarted :: .stepCompleted :: events, errored)
    else ([.stepStarted, .failed], true)

/-- The full event sequence observed for one run started by
`execute_workflow`: the `Started` event, then the background task's loop
events, then — because `execute_step` both sends `Failed` and returns
`Err`, and the `tokio::spawn` wrapper in `execute_workflow` sends `Failed`
again on `Err` — a second `Failed` event after a failing step. -/
def execution_trace (interactive : Bool) (steps : List ExecutionStep)
    (outcome : Nat → Bool) : List EventKind :=
  let (events, errored) := run_loop interactive outcome 0 steps
  .started :: events ++ (if errored then [.failed] else [])

/-- Is `e` one of the four terminal event kinds of the specification's
regex? -/
def is_terminal_event (e : EventKind) : Bool :=
  e == .paused || e == .completed || e == .failed || e == .cancelled

/-- Acceptor for the specification regex
`Started (StepStarted StepProgress* StepCompleted)*
(Paused | Completed | Failed | Cancelled)`; `in_step` is true between a
`StepStarted` and its `StepCompleted`. -/
def matches_body (in_step : Bool) : List EventKind → Bool
  | [] => false
  | e :: rest =>
    if in_step then
      match e with
      | .stepProgress => matches_body true rest
      | .stepCompleted => matches_body false rest
      | _ => false
    else
      match e with
      | .stepStarted => matches_body true rest
      | _ => is_terminal_event e && rest.isEmpty

/-- Does a full event sequence match the specification regex? -/
def matches_event_regex : List EventKind → Bool
  | .started :: rest => matches_body false rest
  | _ => false

/-- The fields of the executor's per-run `ExecutionState` that progress
queries read. -/
structure ExecutionState where
  workflow : WorkflowDefinition
  current_step_index : Nat
  completed_steps_count : Nat
  status : ExecutionStatus
deriving Repr

structure ExecutionProgress where
  workflow_id : WorkflowId
  status : ExecutionStatus
  current_step : Option String
  completed_steps : Nat
  total_steps : Nat
  /-- `f32` ratio modelled as an exact rational. -/
  progress_percent : Rat
deriving Repr

/-- `WorkflowExecutor::get_execution_progress` (the `estimated_remaining`
field, an independent computation, is omitted). -/
def get_execution_progress (st : ExecutionState) : ExecutionProgress :=
  let total := st.workflow.steps.length
  let current_step :=
    if h : st.current_step_index < total then
      some ((st.workflow.steps.get ⟨st.current_step_index, h⟩).id)
    else none
  let progress_percent : Rat :=
    if st.workflow.steps.isEmpty then 1
    else (st.completed_steps_count : Rat) / (total : Rat)
  { workflow_id := st.workflow.metadata.id,
    status := st.status,
    current_step := current_step,
    completed_steps := st.completed_steps_count,
    total_steps := total,
    progress_percent := progress_percent }

/-! ## JSON output capture (`executor.rs`, `capture_json_outputs`) -/

/-- `serde_json::Value`.  A number carries the string `f64::to_string`
renders for it (every `serde_json` number answers `as_f64`, so the
`as_i64` branch of the capture code is unreachable and the rendering is
always the `f64` one). -/
inductive Json
  | null
  | bool (b : Bool)
  | num (rendered : String)
  | str (s : String)
  | arr (items : List Json)
  | obj (fields : List (String × Json))
deriving Repr

/-- The placeholder map (`HashMap<String, String>`), newest binding
first. -/
abbrev Placeholders := List (String × String)

/-- `HashMap::insert` on the placeholder map. -/
def ph_insert (k v : String) (m : Placeholders) : Placeholders :=
  (k, v) :: m.filter (fun p => !(p.1 == k))

/-- `HashMap::get`. -/
def ph_lookup (m : Placeholders) (k : String) : Option String :=
  m.lookup k

/-- Processing of one top-level field in `capture_json_outputs`: strings
and numbers are stored under the bare key and the `step_id.key` form;
booleans, nulls, arrays and nested objects match none of `as_str`,
`as_f64`, `as_i64` and are skipped. -/
def capture_field (step_id : String) (acc : Placeholders)
    (field : String × Json) : Placeholders :=
  match field.2 with
  | .str s => ph_insert (step_id ++ "." ++ field.1) s (ph_insert field.1 s acc)
  | .num rendered =>
    ph_insert (step_id ++ "." ++ field.1) rendered
      (ph_insert field.1 rendered acc)
  | _ => acc

/-- `WorkflowExecutor::capture_json_outputs`. -/
def capture_json_outputs (json : Json) (step_id : String)
    (placeholders : Placeholders) : Placeholders :=
  match json with
  | .obj fields => fields.foldl (capture_field step_id) placeholders
  | _ => placeholders

/-- The placeholder map built in `execute_workflow` at launch, with the
generated UUID and timestamp strings explicit. -/
def initial_placeholders (uuid timestamp : String) : Placeholders :=
  ph_insert "timestamp" timestamp (ph_insert "uuid" uuid [])

/-! ## Workflow-file parsing (`discovery.rs`, `load_workflow_definition`)

`load_workflow_definition` is `serde_yaml::from_str` into the derived
`Deserialize` impls of `WorkflowDefinition` and its field types.  None of
those types carries `#[serde(deny_unknown_fields)]`, so the derived
deserializers read the fields they know by name and ignore every other
key; the embedding below reproduces that field-by-field semantics over a
YAML value tree. -/

inductive Yaml
  | null
  | bool (b : Bool)
  | int (n : Int)
  | float (q : Rat)
  | str (s : String)
  | seq (items : List Yaml)
  | map (fields : List (String × Yaml))
deriving Repr

/-- Deserialize a YAML scalar as a string. -/
def yaml_as_str : Yaml → Except String String
  | .str s => Except.ok s
  | _ => Except.error "invalid type: expected a string"

/-- Deserialize as `i64`. -/
def yaml_as_int : Yaml → Except String Int
  | .int n => Except.ok n
  | _ => Except.error "invalid type: expected an integer"

/-- Deserialize as `u64`. -/
def yaml_as_nat : Yaml → Except String Nat
  | .int n => if n ≥ 0 then Except.ok n.toNat
              else Except.error "invalid value: negative integer for u64"
  | _ => Except.error "invalid type: expected an integer"

/-- Deserialize as `bool`. -/
def yaml_as_bool : Yaml → Except String Bool
  | .bool b => Except.ok b
  | _ => Except.error "invalid type: expected a boolean"

/-- Deserialize as `f64` (exact rationals stand in for floats). -/
def yaml_as_float : Yaml → Except String Rat
  | .float q => Except.ok q
  | .int n => Except.ok (n : Rat)
  | _ => Except.error "invalid type: expected a number"

/-- Deserialize a sequence elementwise. -/
def yaml_list {α : Type} (p : Yaml → Except String α) :
    Yaml → Except String (List α)
  | .seq items => items.mapM p
  | _ => Except.error "invalid type: expected a sequence"

/-- A struct field without a default: missing is an error. -/
def yfield {α : Type} (fields : List (String × Yaml)) (key : String)
    (p : Yaml → Except String α) : Except String α :=
  match fields.lookup key with
  | some v => p v
  | none => Except.error ("missing field `" ++ key ++ "`")

/-- A struct field with `#[serde(default)]` (or an explicit default fn). -/
def yfield_default {α : Type} (fields : List (String × Yaml)) (key : String)
    (p : Yaml → Except String α) (dflt : α) : Except String α :=
  match fields.lookup key with
  | some v => p v
  | none => Except.ok dflt

/-- An `Option<T>` struct field: missing or explicit null is `None`. -/
def yfield_opt {α : Type} (fields : List (String × Yaml)) (key : String)
    (p : Yaml → Except String α) : Except String (Option α) :=
  match fields.lookup key with
  | some .null => Except.ok none
  | some v => (p v).map some
  | none => Except.ok none

/-- `WorkflowCategory` variant names (kebab-case renames plus declared
aliases). -/
def parse_category (y : Yaml) : Except String WorkflowCategory := do
  let s ← yaml_as_str y
  if s = "object-storage" || s = "oss" then pure .objectStorage
  else if s = "model-derivative" || s = "md" then pure .modelDerivative
  else if s = "data-management" || s = "dm" then pure .dataManagement
  else if s = "design-automation" || s = "da" then pure .designAutomation
  else if s = "construction-cloud" || s = "acc" then pure .constructionCloud
  else if s = "reality-capture" || s = "rc" then pure .realityCapture
  else if s = "webhooks" then pure .webhooks
  else if s = "end-to-end" || s = "e2e" then pure .endToEnd
  else Except.error ("unknown variant `" ++ s ++ "` of WorkflowCategory")

/-- `PrerequisiteType` variant names and aliases. -/
def parse_prerequisite_type (y : Yaml) : Except String PrerequisiteType := do
  let s ← yaml_as_str y
  if s = "authentication" || s = "auth" then pure .authentication
  else if s = "permissions" || s = "perms" then pure .permissions
  else if s = "external-tool" || s = "tool" then pure .externalTool
  else if s = "assets" || s = "files" then pure .assets
  else Except.error ("unknown variant `" ++ s ++ "` of PrerequisiteType")

/-- `Prerequisite` (field `type` renamed). -/
def parse_prerequisite : Yaml → Except String Prerequisite
  | .map fields => do
    let prerequisite_type ← yfield fields "type" parse_prerequisite_type
    let description ← yfield fields "description" yaml_as_str
    pure { prerequisite_type, description }
  | _ => Except.error "invalid type: expected a map for Prerequisite"

/-- `CostEstimate`. -/
def parse_cost_estimate : Yaml → Except String CostEstimate
  | .map fields => do
    let description ← yfield fields "description" yaml_as_str
    let max_cost_usd ← yfield fields "max_cost_usd" yaml_as_float
    pure { description, max_cost_usd }
  | _ => Except.error "invalid type: expected a map for CostEstimate"

/-- `WorkflowMetadata`; `estimated_duration` goes through `duration_serde`
(an `i64` second count) with `default_duration` (zero) as its default;
`script_path` is `#[serde(skip)]` and therefore defaulted. -/
def parse_metadata : Yaml → Except String WorkflowMetadata
  | .map fields => do
    let id ← yfield fields "id" yaml_as_str
    let name ← yfield fields "name" yaml_as_str
    let description ← yfield fields "description" yaml_as_str
    let category ← yfield fields "category" parse_category
    let prerequisites ←
      yfield_default fields "prerequisites" (yaml_list parse_prerequisite) []
    let estimated_duration ←
      yfield_default fields "estimated_duration" yaml_as_int 0
    let cost_estimate ← yfield_opt fields "cost_estimate" parse_cost_estimate
    let required_assets ←
      yfield_default fields "required_assets" (yaml_list yaml_as_str) []
    pure { id, name, description, category, prerequisites,
           estimated_duration, cost_estimate, required_assets,
           script_path := "" }
  | _ => Except.error "invalid type: expected a map for WorkflowMetadata"

def parse_auth_action (y : Yaml) : Except String AuthAction := do
  let s ← yaml_as_str y
  if s = "login" then pure .login
  else if s = "logout" then pure .logout
  else if s = "status" then pure .status
  else if s = "refresh" then pure .refresh
  else Except.error ("unknown variant `" ++ s ++ "` of AuthAction")

def parse_bucket_action (y : Yaml) : Except String BucketAction := do
  let s ← yaml_as_str y
  if s = "create" then pure .create
  else if s = "delete" then pure .delete
  else if s = "list" then pure .list
  else if s = "details" then pure .details
  else Except.error ("unknown variant `" ++ s ++ "` of BucketAction")

def parse_object_action (y : Yaml) : Except String ObjectAction := do
  let s ← yaml_as_str y
  if s = "upload" then pure .upload
  else if s = "download" then pure .download
  else if s = "delete" then pure .delete
  else if s = "list" then pure .list
  else if s = "details" then pure .details
  else if s = "signed-url" then pure .signedUrl
  else Except.error ("unknown variant `" ++ s ++ "` of ObjectAction")

def parse_translate_action (y : Yaml) : Except String TranslateAction := do
  let s ← yaml_as_str y
  if s = "start" then pure .start
  else if s = "status" then pure .status
  else if s = "download" then pure .download
  else if s = "manifest" then pure .manifest
  else Except.error ("unknown variant `" ++ s ++ "` of TranslateAction")

def parse_data_mgmt_action (y : Yaml) : Except String DataMgmtAction := do
  let s ← yaml_as_str y
  if s = "hub-list" then pure .hubList
  else if s = "project-list" then pure .projectList
  else if s = "folder-list" then pure .folderList
  else if s = "folder-create" then pure .folderCreate
  else if s = "item-versions" then pure .itemVersions
  else if s = "item-bind" then pure .itemBind
  else Except.error ("unknown variant `" ++ s ++ "` of DataMgmtAction")

def parse_design_auto_action (y : Yaml) : Except String DesignAutoAction := do
  let s ← yaml_as_str y
  if s = "app-bundles" then pure .appBundles
  else if s = "activities" then pure .activities
  else if s = "work-item-run" then pure .workItemRun
  else if s = "work-item-get" then pure .workItemGet
  else Except.error ("unknown variant `" ++ s ++ "` of DesignAutoAction")

/-- `RapsCommand`: internally tagged by `type` (kebab-case), the `params`
structs flattened into the same map; their fields are read from the map by
name, everything else ignored. -/
def parse_command : Yaml → Except String RapsCommand
  | .map fields => do
    let tag ← yfield fields "type" yaml_as_str
    if tag = "auth" then do
      let action ← yfield fields "action" parse_auth_action
      pure (.auth action)
    else if tag = "bucket" then do
      let action ← yfield fields "action" parse_bucket_action
      let bucket_name ← yfield_opt fields "bucket_name" yaml_as_str
      let retention_policy ← yfield_opt fields "retention_policy" yaml_as_str
      let region ← yfield_opt fields "region" yaml_as_str
      let force ← yfield_opt fields "force" yaml_as_bool
      pure (.bucket action { bucket_name, retention_policy, region, force })
    else if tag = "object" then do
      let action ← yfield fields "action" parse_object_action
      let bucket_name ← yfield fields "bucket_name" yaml_as_str
      let object_key ← yfield_opt fields "object_key" yaml_as_str
      let file_path ← yfield_opt fields "file_path" yaml_as_str
      let batch ← yfield_opt fields "batch" yaml_as_bool
      let expires_in ← yfield_opt fields "expires_in" yaml_as_nat
      pure (.object action
        { bucket_name, object_key, file_path, batch, expires_in })
    else if tag = "translate" then do
      let action ← yfield fields "action" parse_translate_action
      let urn ← yfield_opt fields "urn" yaml_as_str
      let format ← yfield_opt fields "format" yaml_as_str
      let output_dir ← yfield_opt fields "output_dir" yaml_as_str
      let wait ← yfield_opt fields "wait" yaml_as_bool
      pure (.translate action { urn, format, output_dir, wait })
    else if tag = "data-management" then do
      let action ← yfield fields "action" parse_data_mgmt_action
      let hub_id ← yfield_opt fields "hub_id" yaml_as_str
      let project_id ← yfield_opt fields "project_id" yaml_as_str
      let folder_id ← yfield_opt fields "folder_id" yaml_as_str
      let item_id ← yfield_opt fields "item_id" yaml_as_str
      let folder_name ← yfield_opt fields "folder_name" yaml_as_str
      pure (.dataManagement action
        { hub_id, project_id, folder_id, item_id, folder_name })
    else if tag = "design-automation" then do
      let action ← yfield fields "action" parse_design_auto_action
      let app_bundle_id ← yfield_opt fields "app_bundle_id" yaml_as_str
      let activity_id ← yfield_opt fields "activity_id" yaml_as_str
      let work_item_id ← yfield_opt fields "work_item_id" yaml_as_str
      let input_file ← yfield_opt fields "input_file" yaml_as_str
      let output_file ← yfield_opt fields "output_file" yaml_as_str
      pure (.designAutomation action
        { app_bundle_id, activity_id, work_item_id, input_file, output_file })
    else if tag = "custom" then do
      let command ← yfield fields "command" yaml_as_str
      let args ← yfield fields "args" (yaml_list yaml_as_str)
      pure (.custom command args)
    else
      Except.error ("unknown variant `" ++ tag ++ "` of RapsCommand")
  | _ => Except.error "invalid type: expected a map for RapsCommand"

/-- `ExecutionStep`; `expected_duration` uses `optional_duration_serde`
with `#[serde(default)]`. -/
def parse_step : Yaml → Except String ExecutionStep
  | .map fields => do
    let id ← yfield fields "id" yaml_as_str
    let name ← yfield fields "name" yaml_as_str
    let description ← yfield fields "description" yaml_as_str
    let command ← yfield fields "command" parse_command
    let expected_duration ← yfield_opt fields "expected_duration" yaml_as_int
    let cleanup_commands ←
      yfield_default fields "cleanup_commands" (yaml_list parse_command) []
    pure { id, name, description, command, expected_duration,
           cleanup_commands }
  | _ => Except.error "invalid type: expected a map for ExecutionStep"

/-- `WorkflowDefinition` — the entry point of
`load_workflow_definition` after the file read. -/
def parse_workflow_definition : Yaml → Except String WorkflowDefinition
  | .map fields => do
    let metadata ← yfield fields "metadata" parse_metadata
    let steps ← yfield fields "steps" (yaml_list parse_step)
    let cleanup ←
      yfield_default fields "cleanup" (yaml_list parse_command) []
    let dependencies ←
      yfield_opt fields "dependencies" (yaml_list yaml_as_str)
    pure { metadata, steps, cleanup, dependencies }
  | _ => Except.error "invalid type: expected a map for WorkflowDefinition"

/-- The field names the derived `WorkflowDefinition` deserializer reads at
the top level. -/
def workflow_definition_keys : List String :=
  ["metadata", "steps", "cleanup", "dependencies"]

/-! ## Demo-naming lemmas -/

theorem has_demo_naming_imp_is_demo {r : TrackedResource}
    (h : r.has_demo_naming = true) : is_demo_name r.name = true := by
  unfold TrackedResource.has_demo_naming at h
  unfold is_demo_name
  simp only [Bool.or_eq_true] at h ⊢
  tauto

theorem is_demo_name_demo_bucket_name (ts : Int) :
    is_demo_name (demo_bucket_name ts) = true := by
  unfold is_demo_name demo_bucket_name
  have h : str_contains ("raps-demo-bucket-" ++ toString ts) "demo-" = true :=
    str_contains_append_left _ (by decide)
  simp [h]

theorem is_demo_name_demo_object_key (ts : Int) (original : String) :
    is_demo_name (demo_object_key ts original) = true := by
  unfold is_demo_name demo_object_key
  have h : str_contains ("demo-" ++ toString ts ++ "-" ++ original) "demo-"
      = true :=
    str_contains_append_left _
      (str_contains_append_left _ (str_contains_append_left _ (by decide)))
  simp [h]

theorem is_demo_name_demo_folder_name (ts : Int) (base : String) :
    is_demo_name (demo_folder_name ts base) = true := by
  unfold is_demo_name demo_folder_name
  have h : str_contains ("RAPS Demo - " ++ base ++ " - " ++ toString ts)
      "RAPS Demo" = true :=
    str_contains_append_left _
      (str_contains_append_left _ (str_contains_append_left _ (by decide)))
  simp [h]

theorem is_demo_name_demo_photoscene_name (ts : Int) :
    is_demo_name (demo_photoscene_name ts) = true := by
  unfold is_demo_name demo_photoscene_name
  have h : str_contains ("raps-demo-photoscene-" ++ toString ts) "demo-"
      = true :=
    str_contains_append_left _ (by decide)
  simp [h]

theorem is_demo_name_demo_generic (base : String) :
    is_demo_name ("demo-" ++ base) = true := by
  unfold is_demo_name
  have h : str_contains ("demo-" ++ base) "demo-" = true :=
    str_contains_append_left _ (by decide)
  simp [h]

theorem is_demo_name_apply_demo_naming (t : ResourceType) (n : String)
    (ts : Int) : is_demo_name (apply_demo_naming t n ts) = true := by
  cases h : is_demo_name n with
  | true =>
    cases t <;> simp [apply_demo_naming, h]
  | false =>
    cases t <;>
      simp [apply_demo_naming, h, is_demo_name_demo_bucket_name,
        is_demo_name_demo_object_key, is_demo_name_demo_folder_name,
        is_demo_name_demo_photoscene_name, is_demo_name_demo_generic]

theorem apply_demo_naming_keeps_demo {t : ResourceType} {n : String}
    (ts : Int) (h : is_demo_name n = true) : apply_demo_naming t n ts = n := by
  cases t <;> simp [apply_demo_naming, h]

/-! ## Concrete fixtures -/

/-- An initial tracker world: fresh tracker, no state file on disk. -/
def w0 : TrackerWorld :=
  { mem := { resources := [], workflow_resources := [],
             cleanup_policies := default_cleanup_policies, cost_data := [] },
    disk := none }

/-- A resource whose presented name is not a demo name. -/
def plain_resource : TrackedResource :=
  { id := 7,
    resource_type := .bucket "US" "transient",
    aps_id := "bucket-7",
    name := "production-bucket",
    created_at := 0,
    workflow_id := "w",
    cleanup_commands := [],
    estimated_cost := none,
    tags := [] }

/-- A translation resource created at time 0. -/
def translation_resource : TrackedResource :=
  { id := 3,
    resource_type := .translation "urn:demo" ["svf2"],
    aps_id := "trans-3",
    name := "demo-translation",
    created_at := 0,
    workflow_id := "w",
    cleanup_commands := [],
    estimated_cost := none,
    tags := [] }

/-- A bucket resource carrying an explicit cleanup command. -/
def bucket_with_cleanup : TrackedResource :=
  { id := 1,
    resource_type := .bucket "US" "transient",
    aps_id := "b-1",
    name := "demo-bucket-1",
    created_at := 0,
    workflow_id := "w",
    cleanup_commands :=
      [RapsCommand.bucket .delete
        { bucket_name := some "b-1", retention_policy := none,
          region := none, force := some true }],
    estimated_cost := none,
    tags := [] }

/-- Tracker state holding `bucket_with_cleanup` under workflow `w`. -/
def st_one_bucket : TrackerState :=
  { resources := [(1, bucket_with_cleanup)],
    workflow_resources := [("w", [1])],
    cleanup_policies := default_cleanup_policies,
    cost_data := [] }

/-! ## C3 — translation cleanup policy and the `should_cleanup` switch -/

/-- C3 counterexample: under the ledger's default policy map a translation
resource aged exactly one hour is already due for cleanup — the source's
`default_cleanup_policies` delays translations by `Duration::hours(1)`,
not the two hours the claim states, so `should_cleanup` is true at an age
strictly below two hours. -/
theorem c3_translation_policy_counterexample :
    should_cleanup_resource default_cleanup_policies 3600
      translation_resource = true ∧
    ¬ (translation_resource.age 3600 ≥ 7200) := by
  constructor
  · decide
  · decide

/-- C3 amended: the ledger's default policy for translation resources is
`Delayed` with duration ONE hour, so `should_cleanup` is true for a
translation resource iff its age is at least one hour; in general the
switch returns true for `Immediate`, `age ≥ d` for `Delayed d`, and false
for `Manual` and `Never`. -/
theorem c3_should_cleanup_policy_switch :
    default_cleanup_policies.lookup "Translation"
      = some (CleanupPolicy.delayed 3600) ∧
    (∀ (now : Int) (r : TrackedResource),
      should_cleanup_resource default_cleanup_policies now r =
        match get_cleanup_policy default_cleanup_policies r.resource_type with
        | .immediate => true
        | .delayed d => decide (r.age now ≥ d)
        | .manual => false
        | .never => false) ∧
    (∀ (now : Int) (r : TrackedResource) (urn : String)
        (formats : List String),
      r.resource_type = .translation urn formats →
      (should_cleanup_resource default_cleanup_policies now r = true ↔
        r.age now ≥ 3600)) := by
  refine ⟨by decide, fun now r => rfl, fun now r urn formats h => ?_⟩
  unfold should_cleanup_resource get_cleanup_policy
  rw [h]
  simp [ResourceType.type_name, default_cleanup_policies, List.lookup,
    CleanupPolicy.default_]

/-- C3 witness: a translation resource aged two hours is due for cleanup,
by the amended equivalence. -/
theorem c3_should_cleanup_policy_switch_witness :
    should_cleanup_resource default_cleanup_policies 7200
      translation_resource = true :=
  (c3_should_cleanup_policy_switch.2.2 7200 translation_resource
    "urn:demo" ["svf2"] rfl).mpr (by decide)

/-! ## C1 — cleanup reports success without executing cleanup commands -/

/-- C1: evaluating the automatic-mode cleanup path at a workflow holding
one immediately-cleanable bucket resource with a non-empty
cleanup-commands list: the resource is reported in `cleaned_resources`,
yet the list of CLI invocations performed is empty — the source's
`cleanup_workflow_resources` never calls the CLI client.  The interactive
mode likewise reports the resource cleaned with no invocation. -/
theorem c1_cleanup_reports_cleaned_without_invoking :
    bucket_with_cleanup.cleanup_commands ≠ [] ∧
    execute_immediate_cleanup st_one_bucket "w" .automatic 0 =
      ({ success := true, cleaned_resources := [1],
         failed_resources := [] }, []) ∧
    (execute_immediate_cleanup st_one_bucket "w" .interactive 0).1.cleaned_resources
      = [1] ∧
    (execute_immediate_cleanup st_one_bucket "w" .interactive 0).2 = [] := by
  refine ⟨by decide, by decide, by decide, by decide⟩

/-! ## C4 — progress-event sequences -/

/-- A single step whose CLI command will fail. -/
def step_s1 : ExecutionStep :=
  { id := "s1", name := "Step 1", description := "d",
    command := .auth .status, expected_duration := none,
    cleanup_commands := [] }

/-- C4: a non-interactive run with one failing step emits the event
sequence `Started, StepStarted, Failed, Failed` — `execute_step` sends
`Failed` and returns `Err`, and the task wrapper in `execute_workflow`
sends `Failed` a second time — which does not match the specification
regex (a successful run does). -/
theorem c4_failed_step_emits_two_failed_events :
    execution_trace false [step_s1] (fun _ => false) =
      [.started, .stepStarted, .failed, .failed] ∧
    matches_event_regex [.started, .stepStarted, .failed, .failed] = false ∧
    execution_trace false [step_s1] (fun _ => true) =
      [.started, .stepStarted, .stepCompleted, .completed] ∧
    matches_event_regex [.started, .stepStarted, .stepCompleted, .completed]
      = true := by
  refine ⟨by decide, by decide, by decide, by decide⟩

/-! ## C10 — progress queries on zero-step workflows -/

def metadata_empty : WorkflowMetadata :=
  { id := "w-empty", name := "Empty", description := "",
    category := .objectStorage, prerequisites := [],
    estimated_duration := 0, cost_estimate := none,
    required_assets := [], script_path := "" }

def workflow_empty : WorkflowDefinition :=
  { metadata := metadata_empty, steps := [], cleanup := [],
    dependencies := none }

def exec_state_empty : ExecutionState :=
  { workflow := workflow_empty, current_step_index := 0,
    completed_steps_count := 0, status := .running }

/-- C10: for a zero-step workflow the progress snapshot reports
`progress_percent = 1` and no current step; the division
`completed / total` is performed only when the step list is non-empty, in
which case the denominator is non-zero. -/
theorem c10_progress_zero_steps_guarded :
    ∀ st : ExecutionState,
      (st.workflow.steps = [] →
        (get_execution_progress st).progress_percent = 1 ∧
        (get_execution_progress st).current_step = none) ∧
      (st.workflow.steps ≠ [] →
        (st.workflow.steps.length : Rat) ≠ 0 ∧
        (get_execution_progress st).progress_percent =
          (st.completed_steps_count : Rat) /
            (st.workflow.steps.length : Rat)) := by
  intro st
  constructor
  · intro h
    unfold get_execution_progress
    simp [h]
  · intro h
    have hlen : st.workflow.steps.length ≠ 0 := by
      simpa [List.length_eq_zero] using h
    constructor
    · exact_mod_cast hlen
    · unfold get_execution_progress
      simp [List.isEmpty_iff, h]

/-- C10 witness: the zero-step case evaluated at a concrete execution
state. -/
theorem c10_progress_zero_steps_guarded_witness :
    (get_execution_progress exec_state_empty).progress_percent = 1 ∧
    (get_execution_progress exec_state_empty).current_step = none :=
  (c10_progress_zero_steps_guarded exec_state_empty).1 rfl

/-! ## C2 — mutating ledger operations under save failure -/

/-- C2 counterexample: tracking a resource into a fresh ledger with the
snapshot write failing returns the failure, but the in-memory state is NOT
rolled back to its pre-operation value — the resource is still present in
both indexes. -/
theorem c2_track_save_failure_not_rolled_back :
    (track_resource w0 plain_resource 0 false).1.isOk = false ∧
    (track_resource w0 plain_resource 0 false).2.mem ≠ w0.mem ∧
    ((track_resource w0 plain_resource 0 false).2.mem.resources.lookup 7).isSome
      = true := by
  refine ⟨by decide, by decide, by decide⟩

/-- C2 amended: a failed snapshot write is returned to the caller by
`track_resource` and `untrack_resource` but the in-memory mutation is
kept (no rollback), and `track_actual_cost` swallows the failure entirely;
when the write succeeds, the in-memory state and the persisted snapshot
agree on return (and `untrack_resource` of an unknown id reports success
without writing). -/
theorem c2_mutation_persistence_behavior :
    ∀ (w : TrackerWorld) (r : TrackedResource) (rid : ResourceId)
      (c : Rat) (ts : Int),
      ((track_resource w r ts true).1.isOk = true ∧
       (track_resource w r ts true).2.disk
         = some (track_resource w r ts true).2.mem) ∧
      ((track_resource w r ts false).1.isOk = false ∧
       (track_resource w r ts false).2.mem
         = (track_resource w r ts true).2.mem ∧
       (track_resource w r ts false).2.disk = w.disk) ∧
      ((w.mem.resources.lookup rid).isSome = true →
        (untrack_resource w rid true).1.isOk = true ∧
        (untrack_resource w rid true).2.disk
          = some (untrack_resource w rid true).2.mem ∧
        (untrack_resource w rid false).1.isOk = false ∧
        (untrack_resource w rid false).2.mem
          = (untrack_resource w rid true).2.mem ∧
        (untrack_resource w rid false).2.disk = w.disk) ∧
      ((w.mem.resources.lookup rid).isSome = false →
        untrack_resource w rid true = (Except.ok (), w)) ∧
      ((track_actual_cost w rid c true).disk
         = some (track_actual_cost w rid c true).mem ∧
       (track_actual_cost w rid c false).disk = w.disk ∧
       (track_actual_cost w rid c false).mem
         = (track_actual_cost w rid c true).mem) := by
  intro w r rid c ts
  refine ⟨⟨rfl, rfl⟩, ⟨rfl, rfl, rfl⟩, ?_, ?_, rfl, rfl, rfl⟩
  · intro h
    rw [Option.isSome_iff_exists] at h
    obtain ⟨res, hres⟩ := h
    refine ⟨?_, ?_, ?_, ?_, ?_⟩ <;>
      simp [untrack_resource, hres, save_state, Except.isOk, Except.toBool]
  · intro h
    cases hl : w.mem.resources.lookup rid with
    | none => simp [untrack_resource, hl]
    | some res => rw [hl] at h; simp at h

/-- C2 witness: the amended behaviour applied at a concrete world — the
no-op success of untracking an id absent from a fresh ledger. -/
theorem c2_mutation_persistence_behavior_witness :
    untrack_resource w0 9 true = (Except.ok (), w0) :=
  (c2_mutation_persistence_behavior w0 plain_resource 9 1 0).2.2.2.1 (by decide)

/-! ## C9 — tracked resources carry demo names -/

/-- C9: after `track_resource` the resource stored under the tracked id
satisfies the demo-name predicate; a presented name that already satisfies
the predicate is kept, and any other name is rewritten through
`apply_demo_naming` (whose outputs all satisfy the predicate). -/
theorem c9_tracked_name_is_demo_name :
    ∀ (w : TrackerWorld) (r : TrackedResource) (ts : Int) (write_ok : Bool),
      ∃ stored : TrackedResource,
        (track_resource w r ts write_ok).2.mem.resources.lookup r.id
          = some stored ∧
        is_demo_name stored.name = true ∧
        (is_demo_name r.name = true → stored.name = r.name) ∧
        (is_demo_name r.name = false →
          stored.name = apply_demo_naming r.resource_type r.name ts) := by
  intro w r ts write_ok
  set r' : TrackedResource :=
    if r.has_demo_naming then r
    else { r with name := apply_demo_naming r.resource_type r.name ts }
    with hr'
  have hid : r'.id = r.id := by
    rw [hr']; split <;> rfl
  have hlookup :
      (track_resource w r ts write_ok).2.mem.resources.lookup r.id
        = some r' := by
    unfold track_resource
    cases write_ok <;>
      simp [save_state, rlist_insert, ← hr', List.lookup, hid]
  refine ⟨r', hlookup, ?_, ?_, ?_⟩
  · rw [hr']
    cases hd : r.has_demo_naming with
    | true => simpa using has_demo_naming_imp_is_demo hd
    | false => simpa using is_demo_name_apply_demo_naming r.resource_type r.name ts
  · intro hdemo
    rw [hr']
    cases hd : r.has_demo_naming with
    | true => simp
    | false => simpa using apply_demo_naming_keeps_demo ts hdemo
  · intro hnot
    rw [hr']
    have hd : r.has_demo_naming = false := by
      cases hd : r.has_demo_naming with
      | true => rw [has_demo_naming_imp_is_demo hd] at hnot; cases hnot
      | false => rfl
    simp [hd]

/-- C9 witness: tracking a resource presented with a non-demo name stores
it under a demo name. -/
theorem c9_tracked_name_is_demo_name_witness :
    ∃ stored : TrackedResource,
      (track_resource w0 plain_resource 5 true).2.mem.resources.lookup 7
        = some stored ∧ is_demo_name stored.name = true := by
  obtain ⟨stored, h1, h2, -, -⟩ :=
    c9_tracked_name_is_demo_name w0 plain_resource 5 true
  exact ⟨stored, h1, h2⟩

/-! ## C5 — validation is exactly the structural rules -/

theorem if_singleton_eq_nil {c : Prop} [Decidable c] {s : String} :
    (if c then [s] else []) = [] ↔ ¬ c := by
  split <;> simp [*]

theorem if_none_eq_none_iff {c : Prop} [Decidable c] {s : String} :
    ((if c then (none : Option String) else some s) = none) ↔ c := by
  split <;> simp [*]

theorem step_errors_eq_nil_iff (steps : List ExecutionStep) :
    ∀ seen : List String,
      step_errors seen steps = [] ↔
        ((steps.map (fun s => s.id)).Nodup ∧
         ∀ s ∈ steps, s.id ≠ "" ∧ s.id ∉ seen ∧ s.name ≠ "" ∧
           validate_command s.command = none) := by
  induction steps with
  | nil => intro seen; simp [step_errors]
  | cons step rest ih =>
    intro seen
    by_cases hid : step.id = ""
    · constructor
      · intro h; simp [step_errors, hid] at h
      · rintro ⟨-, hall⟩
        exact absurd hid (hall step (by simp)).1
    · by_cases hseen : step.id ∈ seen
      · constructor
        · intro h; simp [step_errors, hid, hseen] at h
        · rintro ⟨-, hall⟩
          exact absurd hseen (hall step (by simp)).2.1
      · by_cases hname : step.name = ""
        · constructor
          · intro h; simp [step_errors, hid, hseen, hname] at h
          · rintro ⟨-, hall⟩
            exact absurd hname (hall step (by simp)).2.2.1
        · cases hcmd : validate_command step.command with
          | some m =>
            constructor
            · intro h; simp [step_errors, hid, hseen, hname, hcmd] at h
            · rintro ⟨-, hall⟩
              have h4 := (hall step (by simp)).2.2.2
              rw [hcmd] at h4
              cases h4
          | none =>
            have hred : step_errors seen (step :: rest) =
                step_errors (step.id :: seen) rest := by
              simp [step_errors, hid, hseen, hname, hcmd]
            rw [hred, ih (step.id :: seen)]
            constructor
            · rintro ⟨hnodup, hall⟩
              constructor
              · simp only [List.map_cons, List.nodup_cons]
                refine ⟨fun hmem => ?_, hnodup⟩
                obtain ⟨s, hs, hsid⟩ := List.mem_map.mp hmem
                exact (hall s hs).2.1 (by simp [hsid])
              · intro s hs
                rcases List.mem_cons.mp hs with rfl | hs
                · exact ⟨hid, hseen, hname, hcmd⟩
                · obtain ⟨a1, a2, a3, a4⟩ := hall s hs
                  exact ⟨a1, fun hm => a2 (by simp [hm]), a3, a4⟩
            · rintro ⟨hnodup, hall⟩
              simp only [List.map_cons, List.nodup_cons] at hnodup
              refine ⟨hnodup.2, fun s hs => ?_⟩
              obtain ⟨a1, a2, a3, a4⟩ := hall s (by simp [hs])
              refine ⟨a1, ?_, a3, a4⟩
              intro hm
              rcases List.mem_cons.mp hm with hsid | hsid
              · exact hnodup.1 (List.mem_map.mpr ⟨s, hs, hsid⟩)
              · exact a2 hsid

/-- A workflow definition with two steps sharing the id `s1`. -/
def dup_step_workflow : WorkflowDefinition :=
  { metadata :=
    { id := "dup-wf", name := "Dup", description := "d",
      category := .objectStorage, prerequisites := [],
      estimated_duration := 300, cost_estimate := none,
      required_assets := [], script_path := "" },
    steps :=
      [{ id := "s1", name := "First", description := "d",
         command := .auth .status, expected_duration := none,
         cleanup_commands := [] },
       { id := "s1", name := "Second", description := "d",
         command := .auth .status, expected_duration := none,
         cleanup_commands := [] }],
    cleanup := [],
    dependencies := none }

/-- C5: for any known-workflow set and any definition, validation reports
`valid = true` exactly when the structural rules hold (non-empty workflow
id and name, at least one step, non-empty unique step ids, non-empty step
names, structurally valid commands, dependencies referring to known
workflow ids); and the concrete two-`s1`-step workflow is invalid with an
error `Duplicate step ID: s1`. -/
theorem c5_validate_iff_structural_rules :
    (∀ (known : List WorkflowId) (asset_exists : String → Bool)
        (workflow : WorkflowDefinition),
      (validate_workflow known asset_exists workflow).is_valid = true ↔
        structurally_valid known workflow) ∧
    (validate_workflow ["dup-wf"] (fun _ => true) dup_step_workflow).is_valid
      = false ∧
    "Duplicate step ID: s1" ∈
      (validate_workflow ["dup-wf"] (fun _ => true) dup_step_workflow).errors
    := by
  refine ⟨?_, by decide, by decide⟩
  intro known asset_exists workflow
  simp only [validate_workflow, structurally_valid, List.isEmpty_iff,
    List.append_eq_nil, step_errors_eq_nil_iff, List.filterMap_eq_nil_iff,
    if_singleton_eq_nil, if_none_eq_none_iff]
  constructor
  · rintro ⟨⟨⟨⟨h1, h2⟩, h3⟩, h4, h5⟩, h6⟩
    refine ⟨h1, h2, h3, h4, fun s hs => ?_, fun d hd => ?_⟩
    · obtain ⟨a1, -, a3, a4⟩ := h5 s hs
      exact ⟨a1, a3, a4⟩
    · have := h6 d hd
      simpa using this
  · rintro ⟨h1, h2, h3, h4, h5, h6⟩
    refine ⟨⟨⟨⟨h1, h2⟩, h3⟩, h4, fun s hs => ?_⟩, fun d hd => ?_⟩
    · obtain ⟨a1, a3, a4⟩ := h5 s hs
      exact ⟨a1, by simp, a3, a4⟩
    · simpa using h6 d hd

/-- C5 witness: the equivalence applied at a concrete structurally valid
workflow. -/
theorem c5_validate_iff_structural_rules_witness :
    structurally_valid ["w-empty"]
      { metadata :=
        { id := "ok-wf", name := "Ok", description := "d",
          category := .objectStorage, prerequisites := [],
          estimated_duration := 300, cost_estimate := none,
          required_assets := [], script_path := "" },
        steps := [step_s1], cleanup := [], dependencies := some ["w-empty"] } :=
  (c5_validate_iff_structural_rules.1 ["w-empty"] (fun _ => true) _).mp
    (by decide)

/-! ## C6 — cost-based cleanup -/

theorem estimated_monthly_cost_nonneg (r : TrackedResource) :
    0 ≤ r.estimated_monthly_cost := by
  cases hrt : r.resource_type <;>
    (simp only [TrackedResource.estimated_monthly_cost, hrt]; positivity)

theorem cost_sum_filter_le (p : TrackedResource → Bool)
    (l : List TrackedResource) :
    ((l.filter p).map (fun r => r.estimated_monthly_cost)).sum ≤
      (l.map (fun r => r.estimated_monthly_cost)).sum := by
  induction l with
  | nil => simp
  | cons r rest ih =>
    by_cases hp : p r
    · simpa [hp] using ih
    · simp only [List.filter_cons, hp, if_neg, Bool.false_eq_true,
        List.map_cons, List.sum_cons]
      calc ((rest.filter p).map (fun r => r.estimated_monthly_cost)).sum
          ≤ (rest.map (fun r => r.estimated_monthly_cost)).sum := ih
        _ ≤ r.estimated_monthly_cost +
              (rest.map (fun r => r.estimated_monthly_cost)).sum :=
            le_add_of_nonneg_left (estimated_monthly_cost_nonneg r)

theorem cost_clean_loop_spec (thr : Rat) (l : List TrackedResource) :
    ∀ rem, rem = (l.map (fun r => r.estimated_monthly_cost)).sum →
      ∃ k, cost_clean_loop thr rem l = (l.take k).map (fun r => r.id) ∧
        (((l.drop k).map (fun r => r.estimated_monthly_cost)).sum ≤ thr ∨
          l.drop k = []) := by
  induction l with
  | nil => exact fun rem _ => ⟨0, rfl, Or.inr rfl⟩
  | cons r rest ih =>
    intro rem h
    by_cases hle : rem ≤ thr
    · refine ⟨0, by simp [cost_clean_loop, hle], Or.inl ?_⟩
      rw [List.drop_zero, ← h]
      exact hle
    · have hrem : rem - r.estimated_monthly_cost =
          (rest.map (fun r => r.estimated_monthly_cost)).sum := by
        rw [h]; simp
      obtain ⟨k, hk1, hk2⟩ := ih (rem - r.estimated_monthly_cost) hrem
      refine ⟨k + 1, ?_, ?_⟩
      · simp [cost_clean_loop, hle, hk1]
      · simpa using hk2

theorem sum_cost_sorted (st : TrackerState) (wid : WorkflowId) :
    ((sorted_by_cost_desc st wid).map
      (fun r => r.estimated_monthly_cost)).sum = cost_summary_total st wid :=
  List.Perm.sum_eq
    (List.Perm.map _ (List.perm_insertionSort _ _))

theorem sorted_by_cost_desc_sorted (st : TrackerState) (wid : WorkflowId) :
    (sorted_by_cost_desc st wid).Sorted
      (fun a b => b.estimated_monthly_cost ≤ a.estimated_monthly_cost) := by
  haveI : IsTotal TrackedResource
      (fun a b => b.estimated_monthly_cost ≤ a.estimated_monthly_cost) :=
    ⟨fun a b => le_total _ _⟩
  haveI : IsTrans TrackedResource
      (fun a b => b.estimated_monthly_cost ≤ a.estimated_monthly_cost) :=
    ⟨fun _ _ _ hab hbc => le_trans hbc hab⟩
  exact List.sorted_insertionSort _ _

/-- C6 amended: cost-based cleanup does nothing when the workflow's
estimated cost is at most the threshold; the cleaned list is always a
descending-cost prefix of the workflow's resources; and — provided the
threshold is nonnegative — the total estimated cost of the resources not
cleaned is at most the threshold (for a negative threshold the loop
cleans every resource and the remaining cost only reaches zero). -/
theorem c6_cost_based_cleanup_amended :
    ∀ (st : TrackerState) (wid : WorkflowId) (thr : Rat),
      (cost_summary_total st wid ≤ thr →
        (execute_cost_based_cleanup st wid thr).cleaned_resources = []) ∧
      (∃ k, (execute_cost_based_cleanup st wid thr).cleaned_resources =
        ((sorted_by_cost_desc st wid).take k).map (fun r => r.id)) ∧
      (sorted_by_cost_desc st wid).Sorted
        (fun a b => b.estimated_monthly_cost ≤ a.estimated_monthly_cost) ∧
      (0 ≤ thr → uncleaned_cost st wid thr ≤ thr) := by
  intro st wid thr
  by_cases hle : cost_summary_total st wid ≤ thr
  · refine ⟨fun _ => by simp [execute_cost_based_cleanup, hle],
      ⟨0, by simp [execute_cost_based_cleanup, hle]⟩,
      sorted_by_cost_desc_sorted st wid, fun _ => ?_⟩
    unfold uncleaned_cost
    simp only [execute_cost_based_cleanup, hle, if_pos]
    simpa [cost_summary_total, List.contains] using hle
  · obtain ⟨k, hk1, hk2⟩ :=
      cost_clean_loop_spec thr (sorted_by_cost_desc st wid)
        (cost_summary_total st wid) (sum_cost_sorted st wid).symm
    have hcleaned : (execute_cost_based_cleanup st wid thr).cleaned_resources
        = (((sorted_by_cost_desc st wid).take k).map (fun r => r.id)) := by
      simp only [execute_cost_based_cleanup, hle, if_neg, if_false]
      exact hk1
    refine ⟨fun h => absurd h hle, ⟨k, hcleaned⟩,
      sorted_by_cost_desc_sorted st wid, fun hthr => ?_⟩
    unfold uncleaned_cost
    rw [hcleaned]
    set cleaned := ((sorted_by_cost_desc st wid).take k).map (fun r => r.id)
      with hcl
    set p : TrackedResource → Bool := fun r => !cleaned.contains r.id with hp
    have hperm :
        List.Perm ((get_resources_for_workflow st wid).filter p)
          ((sorted_by_cost_desc st wid).filter p) :=
      List.Perm.filter p (List.perm_insertionSort _ _).symm
    have hsum :
        (((get_resources_for_workflow st wid).filter p).map
          (fun r => r.estimated_monthly_cost)).sum =
        (((sorted_by_cost_desc st wid).filter p).map
          (fun r => r.estimated_monthly_cost)).sum :=
      List.Perm.sum_eq (List.Perm.map _ hperm)
    rw [hsum]
    have hsplit : (sorted_by_cost_desc st wid).filter p =
        ((sorted_by_cost_desc st wid).take k).filter p ++
          ((sorted_by_cost_desc st wid).drop k).filter p := by
      rw [← List.filter_append, List.take_append_drop]
    have htake : ((sorted_by_cost_desc st wid).take k).filter p = [] := by
      rw [List.filter_eq_nil_iff]
      intro r hr
      have hmem : r.id ∈ cleaned :=
        List.mem_map.mpr ⟨r, hr, rfl⟩
      simp [hp, hmem]
    rw [hsplit, htake, List.nil_append]
    rcases hk2 with hk2 | hk2
    · exact le_trans (cost_sum_filter_le p _) hk2
    · rw [hk2]
      simpa using hthr

/-- C6 counterexample: with the threshold `-1`, the workflow's cost `0.01`
exceeds the threshold, the single bucket is cleaned, and the remaining
estimated cost (zero) is still NOT `≤` the threshold — the claim's
postcondition fails for a negative threshold. -/
theorem c6_negative_threshold_counterexample :
    (execute_cost_based_cleanup st_one_bucket "w" (-1)).cleaned_resources
      = [1] ∧
    ¬ (uncleaned_cost st_one_bucket "w" (-1) ≤ (-1)) := by
  have hres : get_resources_for_workflow st_one_bucket "w"
      = [bucket_with_cleanup] := rfl
  have htotal : cost_summary_total st_one_bucket "w" = 1 / 100 := by
    simp [cost_summary_total, hres, TrackedResource.estimated_monthly_cost,
      bucket_with_cleanup]
  have hnle : ¬ (cost_summary_total st_one_bucket "w" ≤ (-1 : Rat)) := by
    rw [htotal]; norm_num
  have hsorted : sorted_by_cost_desc st_one_bucket "w"
      = [bucket_with_cleanup] := by
    simp [sorted_by_cost_desc, hres, List.insertionSort, List.orderedInsert]
  have hcleaned :
      (execute_cost_based_cleanup st_one_bucket "w" (-1)).cleaned_resources
        = [1] := by
    simp only [execute_cost_based_cleanup, hnle, if_neg, if_false, hsorted,
      htotal, cost_clean_loop]
    norm_num [bucket_with_cleanup]
  refine ⟨hcleaned, ?_⟩
  have huncleaned : uncleaned_cost st_one_bucket "w" (-1) = 0 := by
    simp [uncleaned_cost, hcleaned, hres, bucket_with_cleanup]
  rw [huncleaned]
  norm_num

/-- C6 witness: the amended bound applied at a concrete state and a
nonnegative threshold. -/
theorem c6_cost_based_cleanup_amended_witness :
    uncleaned_cost st_one_bucket "w" 2 ≤ 2 :=
  (c6_cost_based_cleanup_amended st_one_bucket "w" 2).2.2.2 (by norm_num)

/-! ## C7 — capture of step JSON outputs into the placeholder map -/

theorem string_append_left_cancel {a b c : String} (h : a ++ b = a ++ c) :
    b = c := by
  apply String.ext
  have hd := congrArg String.data h
  simp only [String.data_append] at hd
  exact List.append_cancel_left hd

theorem ph_lookup_insert_self (k v : String) (m : Placeholders) :
    ph_lookup (ph_insert k v m) k = some v := by
  simp [ph_lookup, ph_insert, List.lookup]

theorem ph_lookup_filter_ne (k key : String) (m : Placeholders)
    (h : key ≠ k) :
    List.lookup key (m.filter (fun p => !(p.1 == k))) = List.lookup key m := by
  induction m with
  | nil => rfl
  | cons a rest ih =>
    by_cases hk : a.1 = k
    · have hkey : (key == a.1) = false := by simp [hk, h]
      have hkk : (key == k) = false := by simp [h]
      simp [List.filter_cons, hk, List.lookup, hkey, hkk, ih]
    · have ha : (a.1 == k) = false := by simp [hk]
      simp only [List.filter_cons, ha, Bool.not_false, if_pos]
      cases hkey : (key == a.1) <;> simp [List.lookup, hkey, ih]

theorem ph_lookup_insert_ne (k v key : String) (m : Placeholders)
    (h : key ≠ k) :
    ph_lookup (ph_insert k v m) key = ph_lookup m key := by
  have hkey : (key == k) = false := by simp [h]
  simp only [ph_lookup, ph_insert, List.lookup, hkey]
  exact ph_lookup_filter_ne k key m h

/-- The scalar payload `capture_json_outputs` extracts from a top-level
JSON value: strings and (rendered) numbers, nothing else. -/
def scalar_value : Json → Option String
  | .str s => some s
  | .num rendered => some rendered
  | _ => none

theorem capture_fold_lookup_other (sid : String) :
    ∀ (fields : List (String × Json)) (acc : Placeholders) (key : String),
      (∀ k' ∈ fields.map Prod.fst, k' ≠ key ∧ sid ++ "." ++ k' ≠ key) →
      ph_lookup (fields.foldl (capture_field sid) acc) key
        = ph_lookup acc key := by
  intro fields
  induction fields with
  | nil => intro acc key _; rfl
  | cons f rest ih =>
    obtain ⟨fk, fv⟩ := f
    intro acc key h
    have hrest : ∀ k' ∈ rest.map Prod.fst,
        k' ≠ key ∧ sid ++ "." ++ k' ≠ key :=
      fun k' hk' => h k' (by simp [hk'])
    have hf : fk ≠ key ∧ sid ++ "." ++ fk ≠ key := h fk (by simp)
    rw [List.foldl_cons, ih _ key hrest]
    cases fv with
    | str s =>
      simp only [capture_field]
      rw [ph_lookup_insert_ne _ _ _ _ (Ne.symm hf.2),
        ph_lookup_insert_ne _ _ _ _ (Ne.symm hf.1)]
    | num s =>
      simp only [capture_field]
      rw [ph_lookup_insert_ne _ _ _ _ (Ne.symm hf.2),
        ph_lookup_insert_ne _ _ _ _ (Ne.symm hf.1)]
    | null => rfl
    | bool b => rfl
    | arr items => rfl
    | obj fs => rfl

/-- C7 counterexample: a boolean top-level leaf is NOT captured — it
matches none of `as_str`, `as_f64`, `as_i64` in the source — so neither
the bare key nor the step-scoped key appears in the placeholder map. -/
theorem c7_boolean_leaf_not_captured :
    ph_lookup (capture_json_outputs (.obj [("flag", .bool true)]) "s1"
      (initial_placeholders "uuid-1" "1700000000")) "flag" = none ∧
    ph_lookup (capture_json_outputs (.obj [("flag", .bool true)]) "s1"
      (initial_placeholders "uuid-1" "1700000000")) "s1.flag" = none := by
  constructor <;> rfl

/-- C7 amended: the run's placeholder map is seeded with `uuid` and
`timestamp`; after a step exiting 0, every top-level STRING or NUMBER
leaf of its parsed JSON output is inserted under both the bare key and
the `step_id.key` form (provided the object's keys are distinct and no
key collides with a step-scoped name) — boolean leaves are skipped — and
a later step's value overwrites an earlier one under the bare key while
the step-scoped keys stay distinct. -/
theorem c7_capture_outputs_amended :
    (∀ u t, ph_lookup (initial_placeholders u t) "uuid" = some u ∧
            ph_lookup (initial_placeholders u t) "timestamp" = some t) ∧
    (∀ (fields : List (String × Json)) (sid : String) (ph : Placeholders)
        (k : String) (v : Json) (s : String),
      (fields.map Prod.fst).Nodup →
      (∀ k' ∈ fields.map Prod.fst, sid ++ "." ++ k' ∉ fields.map Prod.fst) →
      (k, v) ∈ fields → scalar_value v = some s →
      ph_lookup (capture_json_outputs (.obj fields) sid ph) k = some s ∧
      ph_lookup (capture_json_outputs (.obj fields) sid ph)
        (sid ++ "." ++ k) = some s) ∧
    (ph_lookup (capture_json_outputs (.obj [("urn", .str "u-2")]) "step2"
        (capture_json_outputs (.obj [("urn", .str "u-1")]) "step1"
          (initial_placeholders "uuid-1" "1700000000"))) "urn"
      = some "u-2" ∧
     ph_lookup (capture_json_outputs (.obj [("urn", .str "u-2")]) "step2"
        (capture_json_outputs (.obj [("urn", .str "u-1")]) "step1"
          (initial_placeholders "uuid-1" "1700000000"))) "step1.urn"
      = some "u-1" ∧
     ph_lookup (capture_json_outputs (.obj [("urn", .str "u-2")]) "step2"
        (capture_json_outputs (.obj [("urn", .str "u-1")]) "step1"
          (initial_placeholders "uuid-1" "1700000000"))) "step2.urn"
      = some "u-2") := by
  refine ⟨?_, ?_, rfl, rfl, rfl⟩
  · intro u t
    constructor
    · rw [initial_placeholders,
        ph_lookup_insert_ne _ _ _ _ (by decide), ph_lookup_insert_self]
    · rw [initial_placeholders, ph_lookup_insert_self]
  · intro fields
    induction fields with
    | nil => intro sid ph k v s _ _ hmem _; cases hmem
    | cons f rest ih =>
      obtain ⟨fk, fv⟩ := f
      intro sid ph k v s hnodup hscoped hmem hs
      simp only [List.map_cons, List.nodup_cons] at hnodup
      have hscoped_rest : ∀ k' ∈ rest.map Prod.fst,
          sid ++ "." ++ k' ∉ rest.map Prod.fst := by
        intro k' hk' hbad
        exact hscoped k' (by simp [hk']) (by simp [hbad])
      simp only [capture_json_outputs, List.foldl_cons]
      rcases List.mem_cons.mp hmem with heq | hmem'
      · have hk : k = fk := congrArg Prod.fst heq
        have hv : v = fv := congrArg Prod.snd heq
        subst hk
        subst hv
        -- the target field is processed first; later fields leave its
        -- two keys untouched
        have hkeys : k ∈ ((k, v) :: rest).map Prod.fst := by simp
        have hsck : sid ++ "." ++ k ∉ ((k, v) :: rest).map Prod.fst :=
          hscoped k hkeys
        have hsck_ne : sid ++ "." ++ k ≠ k := fun hbad => hsck (by
          rw [hbad]; exact hkeys)
        have hknotin : k ∉ rest.map Prod.fst := hnodup.1
        have hother : ∀ k' ∈ rest.map Prod.fst,
            k' ≠ k ∧ sid ++ "." ++ k' ≠ k := by
          intro k' hk'
          refine ⟨fun hbad => hknotin (hbad ▸ hk'), fun hbad => ?_⟩
          exact hscoped k' (by simp [hk']) (by rw [hbad]; exact hkeys)
        have hother2 : ∀ k' ∈ rest.map Prod.fst,
            k' ≠ sid ++ "." ++ k ∧
            sid ++ "." ++ k' ≠ sid ++ "." ++ k := by
          intro k' hk'
          constructor
          · intro hbad
            apply hsck
            rw [← hbad]
            simp [hk']
          · intro hbad
            exact (hother k' hk').1 (string_append_left_cancel hbad)
        have hcap : capture_field sid ph (k, v) =
            ph_insert (sid ++ "." ++ k) s (ph_insert k s ph) := by
          cases hvv : v with
          | str s' =>
            have hss : s' = s := by
              rw [hvv] at hs; simpa [scalar_value] using hs
            subst hss
            rfl
          | num s' =>
            have hss : s' = s := by
              rw [hvv] at hs; simpa [scalar_value] using hs
            subst hss
            rfl
          | null => rw [hvv] at hs; simp [scalar_value] at hs
          | bool b => rw [hvv] at hs; simp [scalar_value] at hs
          | arr items => rw [hvv] at hs; simp [scalar_value] at hs
          | obj fs => rw [hvv] at hs; simp [scalar_value] at hs
        rw [hcap]
        constructor
        · rw [capture_fold_lookup_other sid rest _ k hother,
            ph_lookup_insert_ne _ _ _ _ (Ne.symm hsck_ne),
            ph_lookup_insert_self]
        · rw [capture_fold_lookup_other sid rest _ (sid ++ "." ++ k) hother2,
            ph_lookup_insert_self]
      · exact ih sid (capture_field sid ph (fk, fv)) k v s hnodup.2
          hscoped_rest hmem' hs

/-- C7 witness: a string leaf captured under the bare key, by the amended
insertion property at a concrete object. -/
theorem c7_capture_outputs_amended_witness :
    ph_lookup (capture_json_outputs (.obj [("urn", .str "u-9")]) "step1"
      (initial_placeholders "uuid-1" "1700000000")) "urn" = some "u-9" :=
  (c7_capture_outputs_amended.2.1 [("urn", Json.str "u-9")] "step1"
    (initial_placeholders "uuid-1" "1700000000") "urn" (Json.str "u-9") "u-9"
    (by decide) (by decide) (by simp) rfl).1

/-! ## C8 — unknown fields in workflow files -/

theorem lookup_append_singleton_ne {V : Type} (fields : List (String × V))
    (k key : String) (v : V) (h : key ≠ k) :
    (fields ++ [(k, v)]).lookup key = fields.lookup key := by
  induction fields with
  | nil =>
    have hkey : (key == k) = false := by simp [h]
    simp [List.lookup, hkey]
  | cons a rest ih =>
    obtain ⟨ak, av⟩ := a
    cases hkey : (key == ak) <;> simp [List.lookup, hkey, ih]

theorem yfield_append_ne {α : Type} (fields : List (String × Yaml))
    (k key : String) (v : Yaml) (p : Yaml → Except String α)
    (h : key ≠ k) :
    yfield (fields ++ [(k, v)]) key p = yfield fields key p := by
  unfold yfield
  rw [lookup_append_singleton_ne fields k key v h]

theorem yfield_default_append_ne {α : Type} (fields : List (String × Yaml))
    (k key : String) (v : Yaml) (p : Yaml → Except String α) (dflt : α)
    (h : key ≠ k) :
    yfield_default (fields ++ [(k, v)]) key p dflt
      = yfield_default fields key p dflt := by
  unfold yfield_default
  rw [lookup_append_singleton_ne fields k key v h]

theorem yfield_opt_append_ne {α : Type} (fields : List (String × Yaml))
    (k key : String) (v : Yaml) (p : Yaml → Except String α)
    (h : key ≠ k) :
    yfield_opt (fields ++ [(k, v)]) key p = yfield_opt fields key p := by
  unfold yfield_opt
  rw [lookup_append_singleton_ne fields k key v h]

/-- C8 amended: the derived deserializer reads only the field names it
knows — adding a binding for any other key to a workflow document leaves
the parse result unchanged (in particular it does not fail): unknown
fields are silently ignored, not rejected. -/
theorem c8_unknown_toplevel_field_ignored :
    ∀ (fields : List (String × Yaml)) (k : String) (v : Yaml),
      k ∉ workflow_definition_keys →
      parse_workflow_definition (.map (fields ++ [(k, v)])) =
        parse_workflow_definition (.map fields) := by
  intro fields k v hk
  simp only [workflow_definition_keys, List.mem_cons,
    List.not_mem_nil, or_false, not_or] at hk
  obtain ⟨h1, h2, h3, h4⟩ := hk
  simp only [parse_workflow_definition]
  rw [yfield_append_ne _ _ _ _ _ (Ne.symm h1),
    yfield_append_ne _ _ _ _ _ (Ne.symm h2),
    yfield_default_append_ne _ _ _ _ _ _ (Ne.symm h3),
    yfield_opt_append_ne _ _ _ _ _ (Ne.symm h4)]

/-- A minimal well-formed workflow document. -/
def minimal_workflow_yaml_fields : List (String × Yaml) :=
  [("metadata", .map [("id", .str "test"), ("name", .str "T"),
      ("description", .str "d"), ("category", .str "object-storage")]),
   ("steps", .seq [.map [("id", .str "s1"), ("name", .str "n"),
      ("description", .str "d"),
      ("command", .map [("type", .str "bucket"), ("action", .str "create"),
         ("bucket_name", .str "b")])]])]

/-- The same document with an extra field not defined by the workflow
file format. -/
def unknown_field_workflow_yaml : Yaml :=
  .map (minimal_workflow_yaml_fields ++ [("frobnicate", .str "ignored")])

/-- C8 counterexample: a workflow document carrying the unknown top-level
field `frobnicate` parses successfully — and to the same definition as
the document without it — rather than producing a parse error. -/
theorem c8_unknown_field_accepted :
    (parse_workflow_definition unknown_field_workflow_yaml).isOk = true ∧
    parse_workflow_definition unknown_field_workflow_yaml =
      parse_workflow_definition (.map minimal_workflow_yaml_fields) := by
  constructor
  · rfl
  · rfl

/-- C8 witness: the amended ignore-property applied at the concrete
minimal document and a concrete unknown key. -/
theorem c8_unknown_toplevel_field_ignored_witness :
    parse_workflow_definition
        (.map (minimal_workflow_yaml_fields ++ [("extra_key", .bool true)]))
      = parse_workflow_definition (.map minimal_workflow_yaml_fields) :=
  c8_unknown_toplevel_field_ignored minimal_workflow_yaml_fields "extra_key"
    (.bool true) (by decide)

end RapsDemo
